import Mathlib

/-!
Shallow embedding of `src/yolo_loss.py`: the `intersection_over_union`
helper and the `YoloLoss.forward` computation, over exact reals.

Tensors are modelled as functions from index types:
  * `predictions` of shape `(N, S*S*B*5)` is `Fin N → Fin (S*S*10) → ℝ`
    (the source hardcodes `B = 2` through its channel slices `0:5` / `5:10`,
    so `B*5 = 10`);
  * `target` of shape `(N, S, S, C)` with `C ≥ 5` is
    `Fin N → Fin S → Fin S → ℕ → ℝ` — the channel index is left unbounded
    since `forward` only ever reads channels `0..4`.

`torch.reshape` of the flat predictions to `(N, S, S, 10)` is modelled by
the row-major index map `(i*S + j)*10 + c`.  `nn.MSELoss(reduction='sum')`
is the plain sum of squared differences.  `torch.max(·, dim=0)` over the
two stacked IoU values returns the index of the first maximum, so the
selected index is `1` exactly when the second value is strictly larger.
-/

namespace Yolo

noncomputable section

open Finset

/-- `torch.sign`: `1` for positive, `-1` for negative, `0` at zero. -/
def sign (x : ℝ) : ℝ := if 0 < x then 1 else if x < 0 then -1 else 0

/-- `Tensor.clamp(0)`: clamp below at zero. -/
def clamp0 (x : ℝ) : ℝ := max x 0

/-- A box is its 4 numeric channels (the last tensor dimension of size 4). -/
abbrev Box := Fin 4 → ℝ

/-- Lines 35-46 of the source: IoU from the eight corner coordinates. -/
def iouFromCorners (b1x1 b1y1 b1x2 b1y2 b2x1 b2y1 b2x2 b2y2 : ℝ) : ℝ :=
  let x1 := max b1x1 b2x1
  let y1 := max b1y1 b2y1
  let x2 := min b1x2 b2x2
  let y2 := min b1y2 b2y2
  let intersection := clamp0 (x2 - x1) * clamp0 (y2 - y1)
  let box1_area := |(b1x2 - b1x1) * (b1y2 - b1y1)|
  let box2_area := |(b2x2 - b2x1) * (b2y2 - b2y1)|
  intersection / (box1_area + box2_area - intersection + 1e-6)

/-- `intersection_over_union(boxes_preds, boxes_labels, box_format)`.
For a `box_format` other than `"midpoint"` / `"corners"` the corner
variables are never assigned and the Python call raises
`UnboundLocalError`; this is modelled as `none`. -/
def intersection_over_union (boxes_preds boxes_labels : Box)
    (box_format : String) : Option ℝ :=
  if box_format = "midpoint" then
    some (iouFromCorners
      (boxes_preds 0 - boxes_preds 2 / 2) (boxes_preds 1 - boxes_preds 3 / 2)
      (boxes_preds 0 + boxes_preds 2 / 2) (boxes_preds 1 + boxes_preds 3 / 2)
      (boxes_labels 0 - boxes_labels 2 / 2) (boxes_labels 1 - boxes_labels 3 / 2)
      (boxes_labels 0 + boxes_labels 2 / 2) (boxes_labels 1 + boxes_labels 3 / 2))
  else if box_format = "corners" then
    some (iouFromCorners
      (boxes_preds 0) (boxes_preds 1) (boxes_preds 2) (boxes_preds 3)
      (boxes_labels 0) (boxes_labels 1) (boxes_labels 2) (boxes_labels 3))
  else none

/-- The `"midpoint"` branch of `intersection_over_union` as a total
function; `forward` always calls the helper with the default format. -/
def iou_midpoint (boxes_preds boxes_labels : Box) : ℝ :=
  iouFromCorners
    (boxes_preds 0 - boxes_preds 2 / 2) (boxes_preds 1 - boxes_preds 3 / 2)
    (boxes_preds 0 + boxes_preds 2 / 2) (boxes_preds 1 + boxes_preds 3 / 2)
    (boxes_labels 0 - boxes_labels 2 / 2) (boxes_labels 1 - boxes_labels 3 / 2)
    (boxes_labels 0 + boxes_labels 2 / 2) (boxes_labels 1 + boxes_labels 3 / 2)

/-- Hardcoded in `YoloLoss.__init__`. -/
def lambda_noobj : ℝ := 0.5

/-- Hardcoded in `YoloLoss.__init__`. -/
def lambda_coord : ℝ := 5

variable (S N : ℕ)

/-- Line 59: `predictions.reshape(-1, S, S, B*5)` — element `(n, i, j, c)`
of the reshaped tensor, read from the flat `(N, S*S*10)` input in
row-major order; the index map stays in bounds. -/
def predR (p : Fin N → Fin (S * S * 10) → ℝ)
    (n : Fin N) (i j : Fin S) (c : Fin 10) : ℝ :=
  p n ⟨(i.val * S + j.val) * 10 + c.val, by
    have hi := i.isLt
    have hj := j.isLt
    have hc := c.isLt
    calc (i.val * S + j.val) * 10 + c.val
        < (i.val * S + j.val) * 10 + 10 := by omega
    _ = (i.val * S + j.val + 1) * 10 := by ring
    _ ≤ S * S * 10 := by
        apply Nat.mul_le_mul_right
        calc i.val * S + j.val + 1 ≤ i.val * S + S := by omega
        _ = (i.val + 1) * S := by ring
        _ ≤ S * S := Nat.mul_le_mul_right S hi⟩

variable (p : Fin N → Fin (S * S * 10) → ℝ) (t : Fin N → Fin S → Fin S → ℕ → ℝ)

/-- `predictions[..., 1:5]`: coordinates of the first predicted box. -/
def predBox1 (n : Fin N) (i j : Fin S) : Box :=
  fun k => predR S N p n i j ⟨k.val + 1, by have := k.isLt; omega⟩

/-- `predictions[..., 6:10]`: coordinates of the second predicted box. -/
def predBox2 (n : Fin N) (i j : Fin S) : Box :=
  fun k => predR S N p n i j ⟨k.val + 6, by have := k.isLt; omega⟩

/-- `target[..., 1:5]`: the ground-truth box of a cell. -/
def targetBox (n : Fin N) (i j : Fin S) : Box :=
  fun k => t n i j (k.val + 1)

/-- Line 60: `iou_b1`. -/
def iou_b1 (n : Fin N) (i j : Fin S) : ℝ :=
  iou_midpoint (predBox1 S N p n i j) (targetBox S N t n i j)

/-- Line 61: `iou_b2`. -/
def iou_b2 (n : Fin N) (i j : Fin S) : ℝ :=
  iou_midpoint (predBox2 S N p n i j) (targetBox S N t n i j)

/-- Lines 62-63: index of the per-cell maximum of `[iou_b1, iou_b2]`;
`torch.max` returns the first maximal index, so ties give `0`. -/
def bestbox (n : Fin N) (i j : Fin S) : ℝ :=
  if iou_b1 S N p t n i j < iou_b2 S N p t n i j then 1 else 0

/-- Line 64: `exists_box = target[..., 0]`. -/
def exists_box (n : Fin N) (i j : Fin S) : ℝ := t n i j 0

/-- Lines 69-72: the masked, `bestbox`-selected box coordinates before the
in-place square-root rewrite of channels `2:4`. -/
def boxPredRaw (n : Fin N) (i j : Fin S) (k : Fin 4) : ℝ :=
  exists_box S N t n i j *
    (bestbox S N p t n i j * predBox2 S N p n i j k +
      (1 - bestbox S N p t n i j) * predBox1 S N p n i j k)

/-- Lines 69-75: `box_predictions` after
`box_predictions[..., 2:4] = sign(v) * sqrt(abs(v + 1e-6))`. -/
def box_predictions (n : Fin N) (i j : Fin S) (k : Fin 4) : ℝ :=
  if 2 ≤ k.val then
    sign (boxPredRaw S N p t n i j k) *
      Real.sqrt |boxPredRaw S N p t n i j k + 1e-6|
  else boxPredRaw S N p t n i j k

/-- Line 77: `exists_box * target[..., 1:5]`. -/
def boxTgtRaw (n : Fin N) (i j : Fin S) (k : Fin 4) : ℝ :=
  exists_box S N t n i j * t n i j (k.val + 1)

/-- Lines 77-78: `box_targets` after
`box_targets[..., 2:4] = sqrt(box_targets[..., 2:4])`. -/
def box_targets (n : Fin N) (i j : Fin S) (k : Fin 4) : ℝ :=
  if 2 ≤ k.val then Real.sqrt (boxTgtRaw S N t n i j k)
  else boxTgtRaw S N t n i j k

/-- Lines 81-84: `box_loss`, a sum of squared differences
(`MSELoss(reduction='sum')`). -/
def box_loss : ℝ :=
  ∑ n : Fin N, ∑ i : Fin S, ∑ j : Fin S, ∑ k : Fin 4,
    (box_predictions S N p t n i j k - box_targets S N t n i j k) ^ 2

/-- Lines 89-91: objectness score of the selected box. -/
def pred_box (n : Fin N) (i j : Fin S) : ℝ :=
  bestbox S N p t n i j * predR S N p n i j 5 +
    (1 - bestbox S N p t n i j) * predR S N p n i j 0

/-- Lines 94-97: `object_loss`. -/
def object_loss : ℝ :=
  ∑ n : Fin N, ∑ i : Fin S, ∑ j : Fin S,
    (exists_box S N t n i j * pred_box S N p t n i j -
      exists_box S N t n i j * t n i j 0) ^ 2

/-- Lines 103-111: `no_object_loss`, both raw objectness channels
penalised against the masked target indicator. -/
def no_object_loss : ℝ :=
  (∑ n : Fin N, ∑ i : Fin S, ∑ j : Fin S,
    ((1 - exists_box S N t n i j) * predR S N p n i j 0 -
      (1 - exists_box S N t n i j) * t n i j 0) ^ 2) +
  (∑ n : Fin N, ∑ i : Fin S, ∑ j : Fin S,
    ((1 - exists_box S N t n i j) * predR S N p n i j 5 -
      (1 - exists_box S N t n i j) * t n i j 0) ^ 2)

/-- Lines 122-129: the total of `YoloLoss.forward`, mean over the batch. -/
def forward : ℝ :=
  (lambda_coord * box_loss S N p t + object_loss S N p t +
    lambda_noobj * no_object_loss S N p t) / N

/-! ### Concrete inputs used by witnesses and counterexamples -/

/-- All-zero flat predictions for a single-cell grid (`S = 1`, `N = 1`). -/
def pz : Fin 1 → Fin (1 * 1 * 10) → ℝ := fun _ _ => 0

/-- All-zero target for a single-cell grid. -/
def tz : Fin 1 → Fin 1 → Fin 1 → ℕ → ℝ := fun _ _ _ _ => 0

/-- A target that differs from the all-zero target only at channel 7. -/
def t7 : Fin 1 → Fin 1 → Fin 1 → ℕ → ℝ := fun _ _ _ c => if c = 7 then 5 else 0

/-- Predictions whose two boxes both have width and height `-1` in the
single cell (flat channels 3, 4, 8, 9), all other channels `0`. -/
def pneg : Fin 1 → Fin (1 * 1 * 10) → ℝ := fun _ c =>
  if c.val = 3 ∨ c.val = 4 ∨ c.val = 8 ∨ c.val = 9 then -1 else 0

/-- Target with an object present (channel 0 = 1), all other channels 0. -/
def tobj : Fin 1 → Fin 1 → Fin 1 → ℕ → ℝ := fun _ _ _ c =>
  if c = 0 then 1 else 0

/-- Flat predictions encoding the box `[1, 0, 0, 1, 1]` twice: channels
1, 2, 6, 7 are `0`, all others (0, 3, 4, 5, 8, 9) are `1`. -/
def peq : Fin 1 → Fin (1 * 1 * 10) → ℝ := fun _ c =>
  if c.val = 1 ∨ c.val = 2 ∨ c.val = 6 ∨ c.val = 7 then 0 else 1

/-- Target `[1, 0, 0, 1, 1]` (one object with unit width and height);
channels above 4 are also `1` but are never read. -/
def teq : Fin 1 → Fin 1 → Fin 1 → ℕ → ℝ := fun _ _ _ c =>
  if c = 1 ∨ c = 2 then 0 else 1

/-! ### Helper lemmas -/

theorem intersection_over_union_midpoint (bp bl : Box) :
    intersection_over_union bp bl "midpoint" = some (iou_midpoint bp bl) := rfl

theorem sign_zero : sign 0 = 0 := by
  unfold sign
  norm_num

theorem sign_one : sign 1 = 1 := by
  unfold sign
  norm_num

theorem box_loss_nonneg : 0 ≤ box_loss S N p t :=
  Finset.sum_nonneg fun _ _ => Finset.sum_nonneg fun _ _ =>
    Finset.sum_nonneg fun _ _ => Finset.sum_nonneg fun _ _ => sq_nonneg _

theorem object_loss_nonneg : 0 ≤ object_loss S N p t :=
  Finset.sum_nonneg fun _ _ => Finset.sum_nonneg fun _ _ =>
    Finset.sum_nonneg fun _ _ => sq_nonneg _

theorem no_object_loss_nonneg : 0 ≤ no_object_loss S N p t :=
  add_nonneg
    (Finset.sum_nonneg fun _ _ => Finset.sum_nonneg fun _ _ =>
      Finset.sum_nonneg fun _ _ => sq_nonneg _)
    (Finset.sum_nonneg fun _ _ => Finset.sum_nonneg fun _ _ =>
      Finset.sum_nonneg fun _ _ => sq_nonneg _)

theorem forward_nonneg_of_losses : 0 ≤ forward S N p t := by
  unfold forward
  apply div_nonneg
  · have h1 := box_loss_nonneg S N p t
    have h2 := object_loss_nonneg S N p t
    have h3 := no_object_loss_nonneg S N p t
    unfold lambda_coord lambda_noobj
    linarith
  · exact_mod_cast Nat.zero_le N

theorem iouFromCorners_sep_zero (a b c d e f g h' : ℝ)
    (hsep : min c g ≤ max a e ∨ min d h' ≤ max b f) :
    iouFromCorners a b c d e f g h' = 0 := by
  simp only [iouFromCorners, clamp0]
  rcases hsep with h | h
  · rw [max_eq_right (by linarith : min c g - max a e ≤ 0), zero_mul, zero_div]
  · rw [max_eq_right (by linarith : min d h' - max b f ≤ 0), mul_zero, zero_div]

theorem pneg_raw : boxPredRaw 1 1 pneg tobj 0 0 0 2 = -1 := by
  unfold boxPredRaw exists_box predBox1 predBox2 predR pneg tobj
  norm_num
  ring

/-- One width/height summand of the box loss under perfect prediction:
the raw masked value is `E * w` with indicator `E ∈ {0,1}` and
non-negative `w`. -/
theorem cell_box_term (E w : ℝ) (hE : E = 0 ∨ E = 1) (hw : 0 ≤ w) :
    (sign (E * w) * Real.sqrt |E * w + 1e-6| - Real.sqrt (E * w)) ^ 2 =
      E * (sign w * Real.sqrt (w + 1e-6) - Real.sqrt w) ^ 2 := by
  have heps : (0 : ℝ) < 1e-6 := by norm_num
  rcases hE with h | h <;> subst h
  · rw [zero_mul, sign_zero, Real.sqrt_zero]
    ring
  · simp only [one_mul]
    rw [abs_of_nonneg (by linarith : (0 : ℝ) ≤ w + 1e-6)]

/-- Under perfect prediction and a valid target, `forward` equals the
explicit residual left by the asymmetric square-root transforms. -/
theorem forward_perfect_formula
    (hpe : ∀ (n : Fin N) (i j : Fin S) (c : Fin 10),
      predR S N p n i j c = t n i j (c.val % 5))
    (ht0 : ∀ n i j, t n i j 0 = 0 ∨ t n i j 0 = 1)
    (htw : ∀ n i j, 0 ≤ t n i j 3) (hth : ∀ n i j, 0 ≤ t n i j 4) :
    forward S N p t =
      lambda_coord * (∑ n : Fin N, ∑ i : Fin S, ∑ j : Fin S,
        t n i j 0 *
          ((sign (t n i j 3) * Real.sqrt (t n i j 3 + 1e-6) -
              Real.sqrt (t n i j 3)) ^ 2 +
           (sign (t n i j 4) * Real.sqrt (t n i j 4 + 1e-6) -
              Real.sqrt (t n i j 4)) ^ 2)) / N := by
  have hpe' : ∀ (n : Fin N) (i j : Fin S) (c : ℕ) (hc : c < 10),
      predR S N p n i j ⟨c, hc⟩ = t n i j (c % 5) := fun n i j c hc =>
    hpe n i j ⟨c, hc⟩
  have hP1 : ∀ (n : Fin N) (i j : Fin S) (k : Fin 4),
      predBox1 S N p n i j k = t n i j (k.val + 1) := by
    intro n i j k
    have h := hpe' n i j (k.val + 1) (by have := k.isLt; omega)
    rwa [Nat.mod_eq_of_lt (by have := k.isLt; omega)] at h
  have hP2 : ∀ (n : Fin N) (i j : Fin S) (k : Fin 4),
      predBox2 S N p n i j k = t n i j (k.val + 1) := by
    intro n i j k
    have h := hpe' n i j (k.val + 6) (by have := k.isLt; omega)
    rwa [(by have := k.isLt; omega : (k.val + 6) % 5 = k.val + 1)] at h
  have hP0 : ∀ (n : Fin N) (i j : Fin S), predR S N p n i j 0 = t n i j 0 := by
    intro n i j
    have h := hpe' n i j 0 (by norm_num)
    simpa using h
  have hP5 : ∀ (n : Fin N) (i j : Fin S), predR S N p n i j 5 = t n i j 0 := by
    intro n i j
    have h := hpe' n i j 5 (by norm_num)
    simpa using h
  have hBPR : ∀ (n : Fin N) (i j : Fin S) (k : Fin 4),
      boxPredRaw S N p t n i j k = t n i j 0 * t n i j (k.val + 1) := by
    intro n i j k
    unfold boxPredRaw exists_box
    rw [hP1, hP2]
    ring
  have hobj : object_loss S N p t = 0 := by
    unfold object_loss
    refine Finset.sum_eq_zero fun n _ => Finset.sum_eq_zero fun i _ =>
      Finset.sum_eq_zero fun j _ => ?_
    unfold pred_box exists_box
    rw [hP0, hP5]
    ring
  have hnoobj : no_object_loss S N p t = 0 := by
    unfold no_object_loss
    have h1 : (∑ n : Fin N, ∑ i : Fin S, ∑ j : Fin S,
        ((1 - exists_box S N t n i j) * predR S N p n i j 0 -
          (1 - exists_box S N t n i j) * t n i j 0) ^ 2) = 0 :=
      Finset.sum_eq_zero fun n _ => Finset.sum_eq_zero fun i _ =>
        Finset.sum_eq_zero fun j _ => by rw [hP0]; ring
    have h2 : (∑ n : Fin N, ∑ i : Fin S, ∑ j : Fin S,
        ((1 - exists_box S N t n i j) * predR S N p n i j 5 -
          (1 - exists_box S N t n i j) * t n i j 0) ^ 2) = 0 :=
      Finset.sum_eq_zero fun n _ => Finset.sum_eq_zero fun i _ =>
        Finset.sum_eq_zero fun j _ => by rw [hP5]; ring
    rw [h1, h2, add_zero]
  have hbox : box_loss S N p t =
      ∑ n : Fin N, ∑ i : Fin S, ∑ j : Fin S,
        t n i j 0 *
          ((sign (t n i j 3) * Real.sqrt (t n i j 3 + 1e-6) -
              Real.sqrt (t n i j 3)) ^ 2 +
           (sign (t n i j 4) * Real.sqrt (t n i j 4 + 1e-6) -
              Real.sqrt (t n i j 4)) ^ 2) := by
    unfold box_loss
    refine Finset.sum_congr rfl fun n _ => Finset.sum_congr rfl fun i _ =>
      Finset.sum_congr rfl fun j _ => ?_
    rw [Fin.sum_univ_four]
    have hb0 : box_predictions S N p t n i j 0 = t n i j 0 * t n i j 1 := by
      unfold box_predictions
      rw [if_neg (by decide), hBPR]
      norm_num
    have hc0 : box_targets S N t n i j 0 = t n i j 0 * t n i j 1 := by
      unfold box_targets boxTgtRaw exists_box
      rw [if_neg (by decide)]
      norm_num
    have hb1 : box_predictions S N p t n i j 1 = t n i j 0 * t n i j 2 := by
      unfold box_predictions
      rw [if_neg (by decide), hBPR]
      norm_num
    have hc1 : box_targets S N t n i j 1 = t n i j 0 * t n i j 2 := by
      unfold box_targets boxTgtRaw exists_box
      rw [if_neg (by decide)]
      norm_num
    have hb2 : box_predictions S N p t n i j 2 =
        sign (t n i j 0 * t n i j 3) *
          Real.sqrt |t n i j 0 * t n i j 3 + 1e-6| := by
      unfold box_predictions
      rw [if_pos (by decide), hBPR]
      norm_num
    have hc2 : box_targets S N t n i j 2 =
        Real.sqrt (t n i j 0 * t n i j 3) := by
      unfold box_targets boxTgtRaw exists_box
      rw [if_pos (by decide)]
      norm_num
    have hb3 : box_predictions S N p t n i j 3 =
        sign (t n i j 0 * t n i j 4) *
          Real.sqrt |t n i j 0 * t n i j 4 + 1e-6| := by
      unfold box_predictions
      rw [if_pos (by decide), hBPR]
      norm_num [show ((3 : Fin 4)).val = 3 from rfl]
    have hc3 : box_targets S N t n i j 3 =
        Real.sqrt (t n i j 0 * t n i j 4) := by
      unfold box_targets boxTgtRaw exists_box
      rw [if_pos (by decide)]
      norm_num [show ((3 : Fin 4)).val = 3 from rfl]
    rw [hb0, hc0, hb1, hc1, hb2, hc2, hb3, hc3,
      cell_box_term (t n i j 0) (t n i j 3) (ht0 n i j) (htw n i j),
      cell_box_term (t n i j 0) (t n i j 4) (ht0 n i j) (hth n i j)]
    ring
  unfold forward
  rw [hbox, hobj, hnoobj]
  ring

/-! ### Claim theorems -/

/-- Claim C10: `intersection_over_union` yields a defined result only for
`box_format` `"midpoint"` or `"corners"`; for any other format string the
corner coordinates are never assigned and the call fails (modelled as
`none`) rather than returning a value. -/
theorem iou_invalid_format (bp bl : Box) (fmt : String)
    (h1 : fmt ≠ "midpoint") (h2 : fmt ≠ "corners") :
    intersection_over_union bp bl fmt = none := by
  unfold intersection_over_union
  rw [if_neg h1, if_neg h2]

/-- Witness for C10 at the concrete format string `"mid"`. -/
theorem iou_invalid_format_wit :
    intersection_over_union (fun _ => 0) (fun _ => 0) "mid" = none :=
  iou_invalid_format (fun _ => 0) (fun _ => 0) "mid" (by decide) (by decide)

/-- Claim C6: two midpoint boxes with non-negative widths and heights whose
corner-form rectangles do not overlap (the intersection rectangle has a
non-positive span on some axis) have IoU exactly `0`. -/
theorem iou_nonoverlap_zero (bp bl : Box)
    (hw1 : 0 ≤ bp 2) (hh1 : 0 ≤ bp 3) (hw2 : 0 ≤ bl 2) (hh2 : 0 ≤ bl 3)
    (hsep :
      min (bp 0 + bp 2 / 2) (bl 0 + bl 2 / 2) ≤
        max (bp 0 - bp 2 / 2) (bl 0 - bl 2 / 2) ∨
      min (bp 1 + bp 3 / 2) (bl 1 + bl 3 / 2) ≤
        max (bp 1 - bp 3 / 2) (bl 1 - bl 3 / 2)) :
    intersection_over_union bp bl "midpoint" = some 0 := by
  rw [intersection_over_union_midpoint]
  unfold iou_midpoint
  rw [iouFromCorners_sep_zero _ _ _ _ _ _ _ _ hsep]

/-- Witness for C6: midpoint boxes `(0,0,2,2)` and `(10,10,2,2)` give
IoU exactly `0`. -/
theorem iou_nonoverlap_zero_wit :
    intersection_over_union ![0, 0, 2, 2] ![10, 10, 2, 2] "midpoint" =
      some 0 := by
  apply iou_nonoverlap_zero <;> norm_num

/-- Claim C7: in `forward`, a cell with `iou_b1 = iou_b2` selects
`bestbox = 0` (first-argmax tie policy of `torch.max`), so the object loss
uses predicted channel `0` and the box loss uses predicted channels `1:5`
(box 0). -/
theorem bestbox_tie_first (n : Fin N) (i j : Fin S)
    (h : iou_b1 S N p t n i j = iou_b2 S N p t n i j) :
    bestbox S N p t n i j = 0 ∧
    pred_box S N p t n i j = predR S N p n i j 0 ∧
    ∀ k : Fin 4, boxPredRaw S N p t n i j k =
      exists_box S N t n i j * predBox1 S N p n i j k := by
  have hb : bestbox S N p t n i j = 0 := by
    unfold bestbox
    rw [h]
    simp
  refine ⟨hb, ?_, ?_⟩
  · unfold pred_box
    rw [hb]
    ring
  · intro k
    unfold boxPredRaw
    rw [hb]
    ring

/-- Witness for C7 on the all-zero single-cell input, where both predicted
boxes coincide and hence have equal IoU with the target. -/
theorem bestbox_tie_first_wit :
    bestbox 1 1 pz tz 0 0 0 = 0 ∧
    pred_box 1 1 pz tz 0 0 0 = predR 1 1 pz 0 0 0 0 ∧
    ∀ k : Fin 4, boxPredRaw 1 1 pz tz 0 0 0 k =
      exists_box 1 1 tz 0 0 0 * predBox1 1 1 pz 0 0 0 k :=
  bestbox_tie_first 1 1 pz tz 0 0 0 rfl

/-- Claim C3: for every batch size `N ≥ 1`, every real-valued flat
predictions tensor and every valid target (`target[...,0] ∈ {0,1}`,
widths/heights non-negative), the scalar returned by `forward` is `≥ 0`. -/
theorem forward_nonneg (hN : 1 ≤ N)
    (ht0 : ∀ n i j, t n i j 0 = 0 ∨ t n i j 0 = 1)
    (htw : ∀ n i j, 0 ≤ t n i j 3) (hth : ∀ n i j, 0 ≤ t n i j 4) :
    0 ≤ forward S N p t :=
  forward_nonneg_of_losses S N p t

/-- Witness for C3 on the all-zero single-cell input. -/
theorem forward_nonneg_wit : 0 ≤ forward 1 1 pz tz :=
  forward_nonneg 1 1 pz tz (le_refl 1) (fun _ _ _ => Or.inl rfl)
    (fun _ _ _ => le_refl 0) (fun _ _ _ => le_refl 0)

/-- Claim C8: with `S = 7`, `B = 2`, batch `N = 13`, the all-ones target
(shape `(13,7,7,10)`, channels `5..9` unread) and any real-valued flat
predictions of shape `(13, 7*7*10)`, `forward` is a total function of the
inputs (the reshape index map of `predR` stays in bounds) and returns a
single non-negative real scalar. -/
theorem forward_smoke_nonneg (pr : Fin 13 → Fin (7 * 7 * 10) → ℝ) :
    0 ≤ forward 7 13 pr (fun _ _ _ _ => 1) :=
  forward_nonneg_of_losses 7 13 pr (fun _ _ _ _ => 1)

/-- Claim C4: if the target objectness channel is zero in every cell, the
box-coordinate loss and the object loss computed by `forward` are exactly
`0`, and the returned total equals `lambda_noobj * no_object_loss / N`. -/
theorem forward_no_objects (h0 : ∀ n i j, t n i j 0 = 0) :
    box_loss S N p t = 0 ∧ object_loss S N p t = 0 ∧
    forward S N p t = lambda_noobj * no_object_loss S N p t / N := by
  have he : ∀ n i j, exists_box S N t n i j = 0 := fun n i j => h0 n i j
  have hbox : box_loss S N p t = 0 := by
    unfold box_loss
    refine Finset.sum_eq_zero fun n _ => Finset.sum_eq_zero fun i _ =>
      Finset.sum_eq_zero fun j _ => Finset.sum_eq_zero fun k _ => ?_
    have hraw : boxPredRaw S N p t n i j k = 0 := by
      unfold boxPredRaw
      rw [he]
      ring
    have htraw : boxTgtRaw S N t n i j k = 0 := by
      unfold boxTgtRaw
      rw [he]
      ring
    unfold box_predictions box_targets
    rw [hraw, htraw]
    by_cases hk : 2 ≤ k.val
    · rw [if_pos hk, if_pos hk, sign_zero, Real.sqrt_zero]
      ring
    · rw [if_neg hk, if_neg hk]
      ring
  have hobj : object_loss S N p t = 0 := by
    unfold object_loss
    refine Finset.sum_eq_zero fun n _ => Finset.sum_eq_zero fun i _ =>
      Finset.sum_eq_zero fun j _ => ?_
    rw [he]
    ring
  refine ⟨hbox, hobj, ?_⟩
  unfold forward
  rw [hbox, hobj]
  ring

/-- Witness for C4 on the all-zero single-cell input. -/
theorem forward_no_objects_wit :
    box_loss 1 1 pz tz = 0 ∧ object_loss 1 1 pz tz = 0 ∧
    forward 1 1 pz tz = lambda_noobj * no_object_loss 1 1 pz tz / 1 := by
  exact_mod_cast forward_no_objects 1 1 pz tz (fun _ _ _ => rfl)

/-- Claim C5: for a valid target (`target[...,0] ∈ {0,1}`), the no-object
loss is the sum over the batch and exactly the cells with objectness
indicator `0` of the squared raw predicted objectness scores at channels
`0` and `5`, neither term gated by `bestbox`. -/
theorem no_object_loss_ungated
    (ht0 : ∀ n i j, t n i j 0 = 0 ∨ t n i j 0 = 1) :
    no_object_loss S N p t =
      ∑ n : Fin N, ∑ i : Fin S, ∑ j : Fin S,
        (1 - t n i j 0) *
          (predR S N p n i j 0 ^ 2 + predR S N p n i j 5 ^ 2) := by
  unfold no_object_loss
  simp only [← Finset.sum_add_distrib]
  refine Finset.sum_congr rfl fun n _ => Finset.sum_congr rfl fun i _ =>
    Finset.sum_congr rfl fun j _ => ?_
  have he : exists_box S N t n i j = t n i j 0 := rfl
  rcases ht0 n i j with h | h <;> rw [he, h] <;> ring

/-- Witness for C5 on the all-zero single-cell input. -/
theorem no_object_loss_ungated_wit :
    no_object_loss 1 1 pz tz =
      ∑ n : Fin 1, ∑ i : Fin 1, ∑ j : Fin 1,
        (1 - tz n i j 0) *
          (predR 1 1 pz n i j 0 ^ 2 + predR 1 1 pz n i j 5 ^ 2) :=
  no_object_loss_ungated 1 1 pz tz (fun _ _ _ => Or.inl rfl)

/-- Claim C9: `forward` reads only channels `0..4` of the target's last
dimension — two targets agreeing on those channels produce the same
scalar, so extra channels at index `5` and above never influence the
loss. -/
theorem forward_ignores_extra_channels
    (t' : Fin N → Fin S → Fin S → ℕ → ℝ)
    (h : ∀ n i j c, c < 5 → t n i j c = t' n i j c) :
    forward S N p t = forward S N p t' := by
  have h0 : ∀ n i j, t n i j 0 = t' n i j 0 := fun n i j =>
    h n i j 0 (by norm_num)
  have hE : ∀ n i j, exists_box S N t n i j = exists_box S N t' n i j := h0
  have hTB : ∀ n i j, targetBox S N t n i j = targetBox S N t' n i j := by
    intro n i j
    funext k
    exact h n i j (k.val + 1) (by have := k.isLt; omega)
  have hBB : ∀ n i j, bestbox S N p t n i j = bestbox S N p t' n i j := by
    intro n i j
    unfold bestbox iou_b1 iou_b2
    rw [hTB]
  have hBP : ∀ n i j k,
      box_predictions S N p t n i j k = box_predictions S N p t' n i j k := by
    intro n i j k
    unfold box_predictions boxPredRaw
    rw [hE, hBB]
  have hBT : ∀ n i j k,
      box_targets S N t n i j k = box_targets S N t' n i j k := by
    intro n i j k
    unfold box_targets boxTgtRaw
    rw [hE, h n i j (k.val + 1) (by have := k.isLt; omega)]
  have hPB : ∀ n i j, pred_box S N p t n i j = pred_box S N p t' n i j := by
    intro n i j
    unfold pred_box
    rw [hBB]
  have hbox : box_loss S N p t = box_loss S N p t' := by
    unfold box_loss
    exact Finset.sum_congr rfl fun n _ => Finset.sum_congr rfl fun i _ =>
      Finset.sum_congr rfl fun j _ => Finset.sum_congr rfl fun k _ => by
        rw [hBP, hBT]
  have hobj : object_loss S N p t = object_loss S N p t' := by
    unfold object_loss
    exact Finset.sum_congr rfl fun n _ => Finset.sum_congr rfl fun i _ =>
      Finset.sum_congr rfl fun j _ => by rw [hE, hPB, h0]
  have hnoobj : no_object_loss S N p t = no_object_loss S N p t' := by
    unfold no_object_loss
    have h1 := Finset.sum_congr rfl fun n (_ : n ∈ Finset.univ) =>
      Finset.sum_congr rfl fun i (_ : i ∈ Finset.univ) =>
      Finset.sum_congr rfl fun j (_ : j ∈ Finset.univ) =>
      show ((1 - exists_box S N t n i j) * predR S N p n i j 0 -
          (1 - exists_box S N t n i j) * t n i j 0) ^ 2 =
        ((1 - exists_box S N t' n i j) * predR S N p n i j 0 -
          (1 - exists_box S N t' n i j) * t' n i j 0) ^ 2 by
        rw [hE, h0]
    have h2 := Finset.sum_congr rfl fun n (_ : n ∈ Finset.univ) =>
      Finset.sum_congr rfl fun i (_ : i ∈ Finset.univ) =>
      Finset.sum_congr rfl fun j (_ : j ∈ Finset.univ) =>
      show ((1 - exists_box S N t n i j) * predR S N p n i j 5 -
          (1 - exists_box S N t n i j) * t n i j 0) ^ 2 =
        ((1 - exists_box S N t' n i j) * predR S N p n i j 5 -
          (1 - exists_box S N t' n i j) * t' n i j 0) ^ 2 by
        rw [hE, h0]
    rw [h1, h2]
  unfold forward
  rw [hbox, hobj, hnoobj]

/-- Witness for C9: the all-zero target and `t7` agree on channels `0..4`
and produce the same loss. -/
theorem forward_ignores_extra_channels_wit :
    forward 1 1 pz tz = forward 1 1 pz t7 :=
  forward_ignores_extra_channels 1 1 pz tz t7 (fun n i j c hc => by
    show (0 : ℝ) = if c = 7 then 5 else 0
    rw [if_neg (by omega)])

/-- Claim C1 (amended): in the box-coordinate loss the value used for a
width/height channel of the masked selected predicted box with raw value
`v` is `sign v * sqrt |v + 1e-6|` — the absolute value is taken around
`v + ε`, not around `v` alone — while the corresponding target channel is
transformed by plain `sqrt`; for non-negative `v` the code's value
coincides with the claimed `sign v * sqrt (|v| + 1e-6)`. -/
theorem box_coord_sqrt_transform (n : Fin N) (i j : Fin S) (k : Fin 4)
    (hk : 2 ≤ k.val) :
    box_predictions S N p t n i j k =
      sign (boxPredRaw S N p t n i j k) *
        Real.sqrt |boxPredRaw S N p t n i j k + 1e-6| ∧
    box_targets S N t n i j k = Real.sqrt (boxTgtRaw S N t n i j k) ∧
    (0 ≤ boxPredRaw S N p t n i j k →
      box_predictions S N p t n i j k =
        sign (boxPredRaw S N p t n i j k) *
          Real.sqrt (|boxPredRaw S N p t n i j k| + 1e-6)) := by
  refine ⟨by unfold box_predictions; rw [if_pos hk],
    by unfold box_targets; rw [if_pos hk], ?_⟩
  intro hge
  have heps : (0 : ℝ) < 1e-6 := by norm_num
  unfold box_predictions
  rw [if_pos hk,
    abs_of_nonneg (by linarith : (0 : ℝ) ≤ boxPredRaw S N p t n i j k + 1e-6),
    abs_of_nonneg hge]

/-- Counterexample to C1 as stated: with both predicted widths `-1` in an
object cell, the value used by the code is `sign (-1) * sqrt |(-1) + 1e-6|
= -sqrt (1 - 1e-6)`, not the claimed `sign (-1) * sqrt (|-1| + 1e-6)
= -sqrt (1 + 1e-6)`. -/
theorem box_coord_sqrt_transform_cex :
    box_predictions 1 1 pneg tobj 0 0 0 2 ≠
      sign (boxPredRaw 1 1 pneg tobj 0 0 0 2) *
        Real.sqrt (|boxPredRaw 1 1 pneg tobj 0 0 0 2| + 1e-6) := by
  have hraw := pneg_raw
  unfold box_predictions
  rw [if_pos (by decide : 2 ≤ (2 : Fin 4).val), hraw]
  have hs : sign (-1 : ℝ) = -1 := by unfold sign; norm_num
  have h1 : |(-1 : ℝ) + 1e-6| = 1 - 1e-6 := by
    rw [abs_of_nonpos (by norm_num)]
    norm_num
  have h2 : |(-1 : ℝ)| = 1 := by norm_num
  rw [hs, h1, h2]
  intro heq
  have hcan := mul_left_cancel₀ (by norm_num : (-1 : ℝ) ≠ 0) heq
  have hlt : Real.sqrt (1 - 1e-6) < Real.sqrt (1 + 1e-6) :=
    Real.sqrt_lt_sqrt (by norm_num) (by norm_num)
  rw [hcan] at hlt
  exact lt_irrefl _ hlt

/-- Witness for C1 on the all-zero single-cell input at channel `k = 2`. -/
theorem box_coord_sqrt_transform_wit :
    box_predictions 1 1 pz tz 0 0 0 2 =
      sign (boxPredRaw 1 1 pz tz 0 0 0 2) *
        Real.sqrt |boxPredRaw 1 1 pz tz 0 0 0 2 + 1e-6| ∧
    box_targets 1 1 tz 0 0 0 2 = Real.sqrt (boxTgtRaw 1 1 tz 0 0 0 2) ∧
    (0 ≤ boxPredRaw 1 1 pz tz 0 0 0 2 →
      box_predictions 1 1 pz tz 0 0 0 2 =
        sign (boxPredRaw 1 1 pz tz 0 0 0 2) *
          Real.sqrt (|boxPredRaw 1 1 pz tz 0 0 0 2| + 1e-6)) :=
  box_coord_sqrt_transform 1 1 pz tz 0 0 0 2 (by decide)

/-- Claim C2 (amended): when the predictions exactly equal a valid target
in every cell (both boxes), the object and no-object losses vanish but the
box loss does not in general: the total equals `lambda_coord / N` times
the sum over cells, gated by the objectness indicator, of the squared
residuals `(sign w * sqrt (w + 1e-6) - sqrt w)^2` for the width and height
channels — zero exactly when every object cell has zero width and height,
and positive otherwise. -/
theorem forward_perfect_prediction
    (hpe : ∀ (n : Fin N) (i j : Fin S) (c : Fin 10),
      predR S N p n i j c = t n i j (c.val % 5))
    (ht0 : ∀ n i j, t n i j 0 = 0 ∨ t n i j 0 = 1)
    (htw : ∀ n i j, 0 ≤ t n i j 3) (hth : ∀ n i j, 0 ≤ t n i j 4) :
    forward S N p t =
      lambda_coord * (∑ n : Fin N, ∑ i : Fin S, ∑ j : Fin S,
        t n i j 0 *
          ((sign (t n i j 3) * Real.sqrt (t n i j 3 + 1e-6) -
              Real.sqrt (t n i j 3)) ^ 2 +
           (sign (t n i j 4) * Real.sqrt (t n i j 4 + 1e-6) -
              Real.sqrt (t n i j 4)) ^ 2)) / N :=
  forward_perfect_formula S N p t hpe ht0 htw hth

/-- Counterexample to C2 as stated: `peq` equals the valid target `teq`
(one object with unit width and height) in every channel of both boxes,
yet `forward` returns `10 * (sqrt (1 + 1e-6) - 1)^2 ≠ 0`. -/
theorem forward_perfect_prediction_cex :
    (∀ (n : Fin 1) (i j : Fin 1) (c : Fin 10),
      predR 1 1 peq n i j c = teq n i j (c.val % 5)) ∧
    (∀ n i j, teq n i j 0 = 0 ∨ teq n i j 0 = 1) ∧
    (∀ n i j, 0 ≤ teq n i j 3) ∧ (∀ n i j, 0 ≤ teq n i j 4) ∧
    forward 1 1 peq teq ≠ 0 := by
  have hpe : ∀ (n : Fin 1) (i j : Fin 1) (c : Fin 10),
      predR 1 1 peq n i j c = teq n i j (c.val % 5) := by
    intro n i j c
    fin_cases n
    fin_cases i
    fin_cases j
    fin_cases c <;> norm_num [predR, peq, teq]
  have hval : ∀ (n : Fin 1) (i j : Fin 1),
      teq n i j 0 = 0 ∨ teq n i j 0 = 1 := fun n i j =>
    Or.inr (by norm_num [teq])
  have hw3 : ∀ (n : Fin 1) (i j : Fin 1), (0 : ℝ) ≤ teq n i j 3 :=
    fun n i j => by norm_num [teq]
  have hw4 : ∀ (n : Fin 1) (i j : Fin 1), (0 : ℝ) ≤ teq n i j 4 :=
    fun n i j => by norm_num [teq]
  refine ⟨hpe, hval, hw3, hw4, ?_⟩
  have hform := forward_perfect_formula 1 1 peq teq hpe hval hw3 hw4
  rw [hform, Fin.sum_univ_one, Fin.sum_univ_one, Fin.sum_univ_one]
  have ht0' : teq 0 0 0 0 = 1 := by norm_num [teq]
  have ht3 : teq 0 0 0 3 = 1 := by norm_num [teq]
  have ht4 : teq 0 0 0 4 = 1 := by norm_num [teq]
  rw [ht0', ht3, ht4, sign_one, Real.sqrt_one]
  have hlt : 1 < Real.sqrt (1 + 1e-6) := by
    have h := Real.sqrt_lt_sqrt (by norm_num : (0 : ℝ) ≤ 1)
      (by norm_num : (1 : ℝ) < 1 + 1e-6)
    rwa [Real.sqrt_one] at h
  have hsq : 0 < (Real.sqrt (1 + 1e-6) - 1) ^ 2 :=
    pow_pos (by linarith) 2
  have hval' : lambda_coord *
      (1 * ((1 * Real.sqrt (1 + 1e-6) - 1) ^ 2 +
        (1 * Real.sqrt (1 + 1e-6) - 1) ^ 2)) / ((1 : ℕ) : ℝ) =
      10 * (Real.sqrt (1 + 1e-6) - 1) ^ 2 := by
    unfold lambda_coord
    push_cast
    ring
  rw [hval']
  exact ne_of_gt (by nlinarith)

/-- Witness for C2 on the all-zero single-cell input, where the formula
evaluates to a loss of `0`. -/
theorem forward_perfect_prediction_wit :
    forward 1 1 pz tz =
      lambda_coord * (∑ n : Fin 1, ∑ i : Fin 1, ∑ j : Fin 1,
        tz n i j 0 *
          ((sign (tz n i j 3) * Real.sqrt (tz n i j 3 + 1e-6) -
              Real.sqrt (tz n i j 3)) ^ 2 +
           (sign (tz n i j 4) * Real.sqrt (tz n i j 4 + 1e-6) -
              Real.sqrt (tz n i j 4)) ^ 2)) / 1 := by
  exact_mod_cast forward_perfect_prediction 1 1 pz tz
    (fun _ _ _ _ => rfl) (fun _ _ _ => Or.inl rfl)
    (fun _ _ _ => le_refl 0) (fun _ _ _ => le_refl 0)

end

end Yolo
